import Mathlib

/-!
# A shallow embedding of the KeyType typing game

This file embeds the state and the event handlers of the typing-game
component `src/components/KeyTypeGame.vue` (the full version, whose
`<script setup>` block declares `checkInput`, `initGame`, `calculateWPM`,
`startChallenge`, `endChallenge`, `saveScore`, the `watch(userInput)`
observer and the automatic countdown) together with `getStoredValue` from
`src/composables/useLocalStorage.ts`.

Conventions of the embedding:
* Strings are `List Char`; JS string indexing `s[i]`, which yields
  `undefined` past the end, is `List.get?`.
* JS numbers holding integer counters are `Nat` (they only ever count up
  from 0 or are reset to 0); the two countdowns are `Int` (they are
  decremented); `Math.round` results are `Int`; the intermediate
  divisions of `calculateWPM` and `accuracy` are exact in `ℚ` and rounding
  uses Mathlib's `round`, which is `⌊x + 1/2⌋` exactly like JS
  `Math.round` on the non-negative values occurring here.
* `Date.now()` is an explicit `now : Nat` argument on the handlers that
  read the clock; the phrase delivered by `fetchRandomText` (remote fetch
  with local fallback) is an explicit `phrase : List Char` argument.
* `setInterval`/`clearInterval` handles are booleans saying whether the
  interval is scheduled; an interval firing is an explicit event, which is
  a no-op once the interval has been cleared.
* Purely visual side effects with no influence on the game state
  (`isTyping`, `lastTypedIndex`, `showSuccessAnimation`, the on-screen
  keyboard highlight refs, `shake-animation` CSS classes,
  `navigator.vibrate`) are not part of the state.
-/

/-- JS whitespace test used by the regular expression `\s` on the
characters that can occur here (space, tab, newline, carriage return). -/
def isWs (c : Char) : Bool :=
  c = ' ' || c = '\t' || c = '\n' || c = '\r'

/-- Removes trailing whitespace (the right half of JS `String.trim`). -/
def trimRight : List Char → List Char
  | [] => []
  | c :: rest =>
    let r := trimRight rest
    if r = [] then (if isWs c then [] else [c]) else c :: r

/-- JS `String.prototype.trim`: drop leading and trailing whitespace. -/
def jsTrim (l : List Char) : List Char :=
  trimRight (l.dropWhile isWs)

/-- Worker for `jsSplitWS`: `acc` is the field currently being built
(reversed), `inSep` records whether the previous character belonged to a
whitespace run. -/
def jsSplitGo : List Char → Bool → List Char → List (List Char)
  | acc, _, [] => [acc.reverse]
  | acc, inSep, c :: rest =>
    if isWs c then
      if inSep then jsSplitGo [] true rest
      else acc.reverse :: jsSplitGo [] true rest
    else jsSplitGo (c :: acc) false rest

/-- JS `s.split(/\s+/)`: split on maximal whitespace runs.  A leading
(resp. trailing) run contributes a leading (resp. trailing) empty field,
and `"".split(/\s+/)` is `[""]`. -/
def jsSplitWS (l : List Char) : List (List Char) :=
  jsSplitGo [] false l

/-- One saved result, interface `Score` of the component
(`{ wpm, accuracy, date, mode }`); `mode` is `true` for `'challenge'`
and the ISO date string is represented by the clock value. -/
structure Score where
  wpm : Int
  accuracy : Int
  date : Nat
  challengeMode : Bool
deriving DecidableEq, Repr

/-- Descending-WPM order used by the leaderboard: the JS comparator
`(a, b) => b.wpm - a.wpm` places `a` before `b` iff `b.wpm ≤ a.wpm`. -/
def wpmGe (a b : Score) : Prop := b.wpm ≤ a.wpm

instance : DecidableRel wpmGe := fun a b => inferInstanceAs (Decidable (b.wpm ≤ a.wpm))

instance : IsTotal Score wpmGe := ⟨fun a b => le_total b.wpm a.wpm⟩

instance : IsTrans Score wpmGe := ⟨fun _ _ _ h1 h2 => le_trans h2 h1⟩

/-- `saveScore` (src/components/KeyTypeGame.vue):
`scores.value = [...scores.value, { ...newScore, date }].sort((a, b) => b.wpm - a.wpm).slice(0, 10)`.
JS `Array.prototype.sort` is a stable sort under the comparator, embedded
here as a stable insertion sort under `wpmGe`. -/
def saveScore (entry : Score) (scores : List Score) : List Score :=
  (List.insertionSort wpmGe (scores ++ [entry])).take 10

/-- The reactive state of the component: one record field per `ref` that
carries game logic, plus the module-level countdown variables. -/
structure GameState where
  currentText : List Char
  userInput : List Char
  score : Nat
  highScore : Nat
  bestTime : Nat
  startTime : Option Nat
  wpm : Int
  errors : Nat
  totalKeystrokes : Nat
  challengeMode : Bool
  challengeTimeLeft : Int
  /-- whether the `challengeTimer` interval handle is live (non-null). -/
  challengeTimerOn : Bool
  countdown : Int
  isCountdownRunning : Bool
  /-- whether the `countdownInterval` handle is live (non-null). -/
  countdownIntervalOn : Bool
  isInputDisabled : Bool
  scores : List Score
deriving DecidableEq, Repr

/-- `stopCountdown`: clear the countdown interval, mark it not running. -/
def stopCountdown (st : GameState) : GameState :=
  { st with countdownIntervalOn := false, isCountdownRunning := false }

/-- `resetCountdown`: stop the countdown, reset it to 30 seconds and
re-enable typing (`isInputDisabled.value = false`). -/
def resetCountdown (st : GameState) : GameState :=
  { stopCountdown st with countdown := 30, isInputDisabled := false }

/-- `startAutoCountdown`: if not already running and time remains,
mark it running and schedule the one-second interval. -/
def startAutoCountdown (st : GameState) : GameState :=
  if ¬st.isCountdownRunning ∧ 0 < st.countdown then
    { st with isCountdownRunning := true, countdownIntervalOn := true }
  else st

/-- `handleCountdownEnd`: the automatic countdown reached 0, typing is
disabled (`isInputDisabled.value = true`). -/
def handleCountdownEnd (st : GameState) : GameState :=
  { st with isInputDisabled := true }

/-- `initGame`: install the freshly fetched `phrase`, clear the input,
stamp the start time, zero the per-phrase counters and reset the
automatic countdown. -/
def initGame (st : GameState) (phrase : List Char) (now : Nat) : GameState :=
  resetCountdown
    { st with
      currentText := phrase
      userInput := []
      startTime := some now
      errors := 0
      totalKeystrokes := 0
      wpm := 0 }

/-- `calculateWPM`: `0` when `startTime` is falsy (JS `!startTime.value`,
hence also for the literal timestamp `0`), otherwise
`Math.round(words / timeElapsed)` with
`timeElapsed = (Date.now() - startTime) / 60000` and
`words = userInput.trim().split(/\s+/).length`. -/
def calculateWPM (st : GameState) (now : Nat) : Int :=
  match st.startTime with
  | none => 0
  | some t0 =>
    if t0 = 0 then 0
    else
      let timeElapsed : ℚ := ((now : ℚ) - (t0 : ℚ)) / 60000
      let words : Nat := (jsSplitWS (jsTrim st.userInput)).length
      round ((words : ℚ) / timeElapsed)

/-- Computed `accuracy`: `100` when nothing was typed, otherwise
`Math.round(((totalKeystrokes - errors) / totalKeystrokes) * 100)`. -/
def accuracy (st : GameState) : Int :=
  if st.totalKeystrokes = 0 then 100
  else round ((((st.totalKeystrokes : ℚ) - (st.errors : ℚ)) / (st.totalKeystrokes : ℚ)) * 100)

/-- The error-scan loop of `checkInput`:
`for (i = 0; i < userInput.length; i++) if (userInput[i] !== currentText[i]) break`.
`true` iff some position below the input length mismatches; past the end
of `currentText` the JS index read yields `undefined`, which differs from
every character. -/
def hasMismatch : List Char → List Char → Bool
  | [], _ => false
  | _ :: _, [] => true
  | c :: input, t :: target => if c ≠ t then true else hasMismatch input target

/-- `endChallenge`: clear the challenge interval, leave challenge mode,
raise `bestTime` if beaten and stop the automatic countdown. -/
def endChallenge (st : GameState) : GameState :=
  stopCountdown
    { st with
      challengeTimerOn := false
      challengeMode := false
      bestTime := if st.bestTime < st.score then st.score else st.bestTime }

/-- `checkInput`, the `@input` handler: when typing is enabled it counts
the keystroke, runs the error scan (at most one increment per call), and
on an exact match computes WPM, bumps score and high score, records the
result through `saveScore` and starts the next phrase via `initGame`. -/
def checkInput (st : GameState) (now : Nat) (phrase : List Char) : GameState :=
  if st.isInputDisabled then st
  else
    let st1 := { st with totalKeystrokes := st.totalKeystrokes + 1 }
    let st2 :=
      if hasMismatch st1.userInput st1.currentText then
        { st1 with errors := st1.errors + 1 }
      else st1
    if st2.userInput = st2.currentText then
      let w := calculateWPM st2 now
      let st3 := { st2 with wpm := w, score := st2.score + 1 }
      let st4 :=
        { st3 with
          highScore := if st3.highScore < st3.score then st3.score else st3.highScore }
      let entry : Score :=
        { wpm := st4.wpm, accuracy := accuracy st4, date := now
          challengeMode := st4.challengeMode }
      let st5 := { st4 with scores := saveScore entry st4.scores }
      initGame st5 phrase now
    else st2

/-- The `watch(userInput)` observer, invoked with the previous flush
value `oldVal`: start the automatic countdown on the first character,
reset it on a completed text, and truncate an over-long input to the
target length (anti-paste).  The truncation mutates `userInput`, which
re-triggers the watcher once; on that second run only the
completed-text branch can apply (the truncated value is never longer
than the target, and the 1-from-0 branch needs an old length of 0 while
the old value here is the over-long input). -/
def watchUserInput (oldVal : List Char) (st : GameState) : GameState :=
  let stA :=
    if st.userInput.length = 1 ∧ oldVal.length = 0 then startAutoCountdown st else st
  let stB := if stA.userInput = stA.currentText then resetCountdown stA else stA
  if stB.currentText.length < stB.userInput.length then
    let stC := { stB with userInput := stB.userInput.take stB.currentText.length }
    if stC.userInput = stC.currentText then resetCountdown stC else stC
  else stB

/-- The `:disabled` binding of the textarea:
`isInputDisabled || (challengeMode && challengeTimeLeft <= 0)`.  While it
holds, the browser delivers no input events. -/
def disabledAttr (st : GameState) : Bool :=
  st.isInputDisabled || (st.challengeMode && st.challengeTimeLeft ≤ 0)

/-- `startChallenge`: enter challenge mode with a 30-second clock
(`challengeTimeLeft.value = 30` in the source), start the automatic
countdown, replace any previous challenge interval by a fresh one and
(re)initialise the game.  `initGame` is async and suspends at its first
`await`, so its body runs after the interval bookkeeping. -/
def startChallenge (st : GameState) (phrase : List Char) (now : Nat) : GameState :=
  let st1 := { st with challengeMode := true, score := 0, challengeTimeLeft := 30 }
  let st2 := startAutoCountdown st1
  let st3 := { st2 with challengeTimerOn := true }
  initGame st3 phrase now

/-- `resetGame`: end a running challenge, reset the countdown, zero the
statistics, re-enable typing and start a fresh phrase. -/
def resetGame (st : GameState) (phrase : List Char) (now : Nat) : GameState :=
  let st1 := if st.challengeMode then endChallenge st else st
  let st2 := resetCountdown st1
  let st3 :=
    { st2 with
      score := 0, wpm := 0, errors := 0, totalKeystrokes := 0, isInputDisabled := false }
  initGame st3 phrase now

/-- One firing of the challenge interval: decrement, and end the
challenge at 0.  A no-op once the interval has been cleared. -/
def challengeTick (st : GameState) : GameState :=
  if st.challengeTimerOn then
    let st1 := { st with challengeTimeLeft := st.challengeTimeLeft - 1 }
    if st1.challengeTimeLeft ≤ 0 then endChallenge st1 else st1
  else st

/-- One firing of the automatic-countdown interval: decrement, and at 0
stop the countdown and disable typing.  A no-op once cleared. -/
def countdownTick (st : GameState) : GameState :=
  if st.countdownIntervalOn then
    let st1 := { st with countdown := st.countdown - 1 }
    if st1.countdown ≤ 0 then handleCountdownEnd (stopCountdown st1) else st1
  else st

/-- The externally observable operations on the component.  Input events
and the operations that fetch a phrase carry the clock value and the
delivered phrase. -/
inductive Event where
  | input (newInput : List Char) (now : Nat) (phrase : List Char)
  | challengeTickEv
  | countdownTickEv
  | startChallengeEv (phrase : List Char) (now : Nat)
  | resetEv (phrase : List Char) (now : Nat)
  | changeLanguageEv (phrase : List Char) (now : Nat)
deriving Repr

/-- One input event end to end: the `v-model` write, the `@input`
handler `checkInput`, then the `watch(userInput)` flush.  No event is
delivered while the textarea's `disabled` attribute holds. -/
def stepInput (newInput : List Char) (now : Nat) (phrase : List Char)
    (st : GameState) : GameState :=
  if disabledAttr st then st
  else
    let oldVal := st.userInput
    let st1 := { st with userInput := newInput }
    let st2 := checkInput st1 now phrase
    watchUserInput oldVal st2

/-- The transition function of the component. -/
def step (ev : Event) (st : GameState) : GameState :=
  match ev with
  | .input newInput now phrase => stepInput newInput now phrase st
  | .challengeTickEv => challengeTick st
  | .countdownTickEv => countdownTick st
  | .startChallengeEv phrase now => startChallenge st phrase now
  | .resetEv phrase now => resetGame st phrase now
  | .changeLanguageEv phrase now => initGame st phrase now

/-- Run a sequence of events. -/
def run (evs : List Event) (st : GameState) : GameState :=
  evs.foldl (fun s e => step e s) st

/-- The state right after `onMounted(initGame)`, parameterised by the
persisted values loaded at startup (`highScore`, `bestTime`, `scores`)
and by the first phrase and clock value. -/
def initialState (hs bt : Nat) (sc : List Score) (phrase : List Char) (now : Nat) :
    GameState :=
  initGame
    { currentText := []
      userInput := []
      score := 0
      highScore := hs
      bestTime := bt
      startTime := none
      wpm := 0
      errors := 0
      totalKeystrokes := 0
      challengeMode := false
      challengeTimeLeft := 0
      challengeTimerOn := false
      countdown := 30
      isCountdownRunning := false
      countdownIntervalOn := false
      isInputDisabled := false
      scores := sc }
    phrase now

/-!
## The persistence wrapper `useLocalStorage` (src/composables/useLocalStorage.ts)
-/

/-- A JSON value as produced by a successful `JSON.parse`. -/
inductive JsVal where
  | str (s : List Char)
  | num (q : ℚ)
  | bool (b : Bool)
  | null
  | arr (elems : List JsVal)
  | obj (fields : List (List Char × JsVal))

/-- The four possible results of JS `typeof` on a `JSON.parse` value
(arrays and `null` are `"object"`). -/
inductive JsTypeTag where
  | tString
  | tNumber
  | tBoolean
  | tObject
deriving DecidableEq

/-- JS `typeof`. -/
def typeofJs : JsVal → JsTypeTag
  | .str _ => .tString
  | .num _ => .tNumber
  | .bool _ => .tBoolean
  | .null => .tObject
  | .arr _ => .tObject
  | .obj _ => .tObject

/-- JS `Array.isArray`. -/
def isArrayJs : JsVal → Bool
  | .arr _ => true
  | _ => false

/-- `getStoredValue` inside `useLocalStorage(key, defaultValue)`.  The
browser storage is a partial map from keys to stored text
(`localStorage.getItem` returns `null` for a missing key) and
`JSON.parse`, which can throw, is a partial function modelled by
`Except`; the surrounding `try`/`catch` turns any parse error into the
default.  A parsed value whose `typeof` AND `Array.isArray` both
disagree with the default's is rejected in favour of the default. -/
def getStoredValue (storage : List Char → Option (List Char))
    (jsonParse : List Char → Except (List Char) JsVal)
    (key : List Char) (defaultValue : JsVal) : JsVal :=
  match storage key with
  | none => defaultValue
  | some storedValue =>
    match jsonParse storedValue with
    | .error _ => defaultValue
    | .ok parsed =>
      if typeofJs parsed ≠ typeofJs defaultValue ∧ isArrayJs parsed ≠ isArrayJs defaultValue
      then defaultValue
      else parsed

/-!
## Field-effect lemmas for the small handlers
-/

@[simp] lemma stopCountdown_errors (st : GameState) : (stopCountdown st).errors = st.errors := rfl
@[simp] lemma stopCountdown_totalKeystrokes (st : GameState) :
    (stopCountdown st).totalKeystrokes = st.totalKeystrokes := rfl
@[simp] lemma stopCountdown_userInput (st : GameState) :
    (stopCountdown st).userInput = st.userInput := rfl
@[simp] lemma stopCountdown_currentText (st : GameState) :
    (stopCountdown st).currentText = st.currentText := rfl
@[simp] lemma stopCountdown_score (st : GameState) : (stopCountdown st).score = st.score := rfl
@[simp] lemma stopCountdown_highScore (st : GameState) :
    (stopCountdown st).highScore = st.highScore := rfl
@[simp] lemma stopCountdown_bestTime (st : GameState) :
    (stopCountdown st).bestTime = st.bestTime := rfl
@[simp] lemma stopCountdown_scores (st : GameState) : (stopCountdown st).scores = st.scores := rfl
@[simp] lemma stopCountdown_challengeMode (st : GameState) :
    (stopCountdown st).challengeMode = st.challengeMode := rfl
@[simp] lemma stopCountdown_challengeTimeLeft (st : GameState) :
    (stopCountdown st).challengeTimeLeft = st.challengeTimeLeft := rfl
@[simp] lemma stopCountdown_challengeTimerOn (st : GameState) :
    (stopCountdown st).challengeTimerOn = st.challengeTimerOn := rfl
@[simp] lemma stopCountdown_isInputDisabled (st : GameState) :
    (stopCountdown st).isInputDisabled = st.isInputDisabled := rfl
@[simp] lemma stopCountdown_startTime (st : GameState) :
    (stopCountdown st).startTime = st.startTime := rfl

@[simp] lemma resetCountdown_errors (st : GameState) : (resetCountdown st).errors = st.errors := rfl
@[simp] lemma resetCountdown_totalKeystrokes (st : GameState) :
    (resetCountdown st).totalKeystrokes = st.totalKeystrokes := rfl
@[simp] lemma resetCountdown_userInput (st : GameState) :
    (resetCountdown st).userInput = st.userInput := rfl
@[simp] lemma resetCountdown_currentText (st : GameState) :
    (resetCountdown st).currentText = st.currentText := rfl
@[simp] lemma resetCountdown_score (st : GameState) : (resetCountdown st).score = st.score := rfl
@[simp] lemma resetCountdown_highScore (st : GameState) :
    (resetCountdown st).highScore = st.highScore := rfl
@[simp] lemma resetCountdown_bestTime (st : GameState) :
    (resetCountdown st).bestTime = st.bestTime := rfl
@[simp] lemma resetCountdown_scores (st : GameState) : (resetCountdown st).scores = st.scores := rfl
@[simp] lemma resetCountdown_challengeMode (st : GameState) :
    (resetCountdown st).challengeMode = st.challengeMode := rfl
@[simp] lemma resetCountdown_challengeTimeLeft (st : GameState) :
    (resetCountdown st).challengeTimeLeft = st.challengeTimeLeft := rfl
@[simp] lemma resetCountdown_challengeTimerOn (st : GameState) :
    (resetCountdown st).challengeTimerOn = st.challengeTimerOn := rfl
@[simp] lemma resetCountdown_isInputDisabled (st : GameState) :
    (resetCountdown st).isInputDisabled = false := rfl
@[simp] lemma resetCountdown_startTime (st : GameState) :
    (resetCountdown st).startTime = st.startTime := rfl

@[simp] lemma startAutoCountdown_errors (st : GameState) :
    (startAutoCountdown st).errors = st.errors := by unfold startAutoCountdown; split <;> rfl
@[simp] lemma startAutoCountdown_totalKeystrokes (st : GameState) :
    (startAutoCountdown st).totalKeystrokes = st.totalKeystrokes := by
  unfold startAutoCountdown; split <;> rfl
@[simp] lemma startAutoCountdown_userInput (st : GameState) :
    (startAutoCountdown st).userInput = st.userInput := by
  unfold startAutoCountdown; split <;> rfl
@[simp] lemma startAutoCountdown_currentText (st : GameState) :
    (startAutoCountdown st).currentText = st.currentText := by
  unfold startAutoCountdown; split <;> rfl
@[simp] lemma startAutoCountdown_score (st : GameState) :
    (startAutoCountdown st).score = st.score := by unfold startAutoCountdown; split <;> rfl
@[simp] lemma startAutoCountdown_highScore (st : GameState) :
    (startAutoCountdown st).highScore = st.highScore := by unfold startAutoCountdown; split <;> rfl
@[simp] lemma startAutoCountdown_bestTime (st : GameState) :
    (startAutoCountdown st).bestTime = st.bestTime := by unfold startAutoCountdown; split <;> rfl
@[simp] lemma startAutoCountdown_scores (st : GameState) :
    (startAutoCountdown st).scores = st.scores := by unfold startAutoCountdown; split <;> rfl
@[simp] lemma startAutoCountdown_challengeMode (st : GameState) :
    (startAutoCountdown st).challengeMode = st.challengeMode := by
  unfold startAutoCountdown; split <;> rfl
@[simp] lemma startAutoCountdown_challengeTimeLeft (st : GameState) :
    (startAutoCountdown st).challengeTimeLeft = st.challengeTimeLeft := by
  unfold startAutoCountdown; split <;> rfl
@[simp] lemma startAutoCountdown_challengeTimerOn (st : GameState) :
    (startAutoCountdown st).challengeTimerOn = st.challengeTimerOn := by
  unfold startAutoCountdown; split <;> rfl
@[simp] lemma startAutoCountdown_isInputDisabled (st : GameState) :
    (startAutoCountdown st).isInputDisabled = st.isInputDisabled := by
  unfold startAutoCountdown; split <;> rfl
@[simp] lemma startAutoCountdown_startTime (st : GameState) :
    (startAutoCountdown st).startTime = st.startTime := by
  unfold startAutoCountdown; split <;> rfl

@[simp] lemma handleCountdownEnd_errors (st : GameState) :
    (handleCountdownEnd st).errors = st.errors := rfl
@[simp] lemma handleCountdownEnd_totalKeystrokes (st : GameState) :
    (handleCountdownEnd st).totalKeystrokes = st.totalKeystrokes := rfl
@[simp] lemma handleCountdownEnd_userInput (st : GameState) :
    (handleCountdownEnd st).userInput = st.userInput := rfl
@[simp] lemma handleCountdownEnd_currentText (st : GameState) :
    (handleCountdownEnd st).currentText = st.currentText := rfl
@[simp] lemma handleCountdownEnd_bestTime (st : GameState) :
    (handleCountdownEnd st).bestTime = st.bestTime := rfl
@[simp] lemma handleCountdownEnd_score (st : GameState) :
    (handleCountdownEnd st).score = st.score := rfl
@[simp] lemma handleCountdownEnd_isInputDisabled (st : GameState) :
    (handleCountdownEnd st).isInputDisabled = true := rfl

@[simp] lemma initGame_errors (st : GameState) (ph : List Char) (now : Nat) :
    (initGame st ph now).errors = 0 := rfl
@[simp] lemma initGame_totalKeystrokes (st : GameState) (ph : List Char) (now : Nat) :
    (initGame st ph now).totalKeystrokes = 0 := rfl
@[simp] lemma initGame_userInput (st : GameState) (ph : List Char) (now : Nat) :
    (initGame st ph now).userInput = [] := rfl
@[simp] lemma initGame_currentText (st : GameState) (ph : List Char) (now : Nat) :
    (initGame st ph now).currentText = ph := rfl
@[simp] lemma initGame_startTime (st : GameState) (ph : List Char) (now : Nat) :
    (initGame st ph now).startTime = some now := rfl
@[simp] lemma initGame_isInputDisabled (st : GameState) (ph : List Char) (now : Nat) :
    (initGame st ph now).isInputDisabled = false := rfl
@[simp] lemma initGame_score (st : GameState) (ph : List Char) (now : Nat) :
    (initGame st ph now).score = st.score := rfl
@[simp] lemma initGame_highScore (st : GameState) (ph : List Char) (now : Nat) :
    (initGame st ph now).highScore = st.highScore := rfl
@[simp] lemma initGame_bestTime (st : GameState) (ph : List Char) (now : Nat) :
    (initGame st ph now).bestTime = st.bestTime := rfl
@[simp] lemma initGame_scores (st : GameState) (ph : List Char) (now : Nat) :
    (initGame st ph now).scores = st.scores := rfl
@[simp] lemma initGame_challengeMode (st : GameState) (ph : List Char) (now : Nat) :
    (initGame st ph now).challengeMode = st.challengeMode := rfl
@[simp] lemma initGame_challengeTimeLeft (st : GameState) (ph : List Char) (now : Nat) :
    (initGame st ph now).challengeTimeLeft = st.challengeTimeLeft := rfl
@[simp] lemma initGame_challengeTimerOn (st : GameState) (ph : List Char) (now : Nat) :
    (initGame st ph now).challengeTimerOn = st.challengeTimerOn := rfl

@[simp] lemma endChallenge_errors (st : GameState) : (endChallenge st).errors = st.errors := rfl
@[simp] lemma endChallenge_totalKeystrokes (st : GameState) :
    (endChallenge st).totalKeystrokes = st.totalKeystrokes := rfl
@[simp] lemma endChallenge_userInput (st : GameState) :
    (endChallenge st).userInput = st.userInput := rfl
@[simp] lemma endChallenge_currentText (st : GameState) :
    (endChallenge st).currentText = st.currentText := rfl
@[simp] lemma endChallenge_score (st : GameState) : (endChallenge st).score = st.score := rfl
@[simp] lemma endChallenge_highScore (st : GameState) :
    (endChallenge st).highScore = st.highScore := rfl
@[simp] lemma endChallenge_scores (st : GameState) : (endChallenge st).scores = st.scores := rfl
@[simp] lemma endChallenge_challengeMode (st : GameState) :
    (endChallenge st).challengeMode = false := rfl
@[simp] lemma endChallenge_challengeTimerOn (st : GameState) :
    (endChallenge st).challengeTimerOn = false := rfl
@[simp] lemma endChallenge_challengeTimeLeft (st : GameState) :
    (endChallenge st).challengeTimeLeft = st.challengeTimeLeft := rfl
@[simp] lemma endChallenge_isInputDisabled (st : GameState) :
    (endChallenge st).isInputDisabled = st.isInputDisabled := rfl
@[simp] lemma endChallenge_startTime (st : GameState) :
    (endChallenge st).startTime = st.startTime := rfl
@[simp] lemma endChallenge_bestTime (st : GameState) :
    (endChallenge st).bestTime = if st.bestTime < st.score then st.score else st.bestTime := rfl

/-!
## Behaviour of the `watch(userInput)` observer
-/

@[simp] lemma watchUserInput_errors (o : List Char) (st : GameState) :
    (watchUserInput o st).errors = st.errors := by
  simp only [watchUserInput]; split_ifs <;> simp

@[simp] lemma watchUserInput_totalKeystrokes (o : List Char) (st : GameState) :
    (watchUserInput o st).totalKeystrokes = st.totalKeystrokes := by
  simp only [watchUserInput]; split_ifs <;> simp

@[simp] lemma watchUserInput_currentText (o : List Char) (st : GameState) :
    (watchUserInput o st).currentText = st.currentText := by
  simp only [watchUserInput]; split_ifs <;> simp

@[simp] lemma watchUserInput_score (o : List Char) (st : GameState) :
    (watchUserInput o st).score = st.score := by
  simp only [watchUserInput]; split_ifs <;> simp

@[simp] lemma watchUserInput_highScore (o : List Char) (st : GameState) :
    (watchUserInput o st).highScore = st.highScore := by
  simp only [watchUserInput]; split_ifs <;> simp

@[simp] lemma watchUserInput_bestTime (o : List Char) (st : GameState) :
    (watchUserInput o st).bestTime = st.bestTime := by
  simp only [watchUserInput]; split_ifs <;> simp

@[simp] lemma watchUserInput_scores (o : List Char) (st : GameState) :
    (watchUserInput o st).scores = st.scores := by
  simp only [watchUserInput]; split_ifs <;> simp

@[simp] lemma watchUserInput_challengeMode (o : List Char) (st : GameState) :
    (watchUserInput o st).challengeMode = st.challengeMode := by
  simp only [watchUserInput]; split_ifs <;> simp

@[simp] lemma watchUserInput_challengeTimeLeft (o : List Char) (st : GameState) :
    (watchUserInput o st).challengeTimeLeft = st.challengeTimeLeft := by
  simp only [watchUserInput]; split_ifs <;> simp

@[simp] lemma watchUserInput_challengeTimerOn (o : List Char) (st : GameState) :
    (watchUserInput o st).challengeTimerOn = st.challengeTimerOn := by
  simp only [watchUserInput]; split_ifs <;> simp

@[simp] lemma watchUserInput_startTime (o : List Char) (st : GameState) :
    (watchUserInput o st).startTime = st.startTime := by
  simp only [watchUserInput]; split_ifs <;> simp

/-- The observer never disables typing: it can only re-enable it
(via `resetCountdown`). -/
lemma watchUserInput_isInputDisabled (o : List Char) (st : GameState)
    (h : st.isInputDisabled = false) :
    (watchUserInput o st).isInputDisabled = false := by
  simp only [watchUserInput]; split_ifs <;> simp [h]

/-- An input that does not exceed the target is left alone by the
observer. -/
lemma watchUserInput_userInput_of_le (o : List Char) (st : GameState)
    (h : st.userInput.length ≤ st.currentText.length) :
    (watchUserInput o st).userInput = st.userInput := by
  simp only [watchUserInput]
  split_ifs <;> simp_all <;> omega

/-- An over-long input is truncated to the target's length (anti-paste). -/
lemma watchUserInput_userInput_of_gt (o : List Char) (st : GameState)
    (h : st.currentText.length < st.userInput.length) :
    (watchUserInput o st).userInput = st.userInput.take st.currentText.length := by
  simp only [watchUserInput]
  split_ifs <;> simp_all <;> omega

/-!
## Behaviour of `checkInput`
-/

/-- When typing is disabled, `checkInput` returns immediately. -/
lemma checkInput_of_disabled (st : GameState) (now : Nat) (ph : List Char)
    (h : st.isInputDisabled = true) : checkInput st now ph = st := by
  unfold checkInput; simp [h]

/-- On an event that does not complete the phrase, `checkInput` adds one
keystroke and at most one error and changes nothing else. -/
lemma checkInput_of_ne (st : GameState) (now : Nat) (ph : List Char)
    (h : st.isInputDisabled = false) (hne : st.userInput ≠ st.currentText) :
    checkInput st now ph =
      { st with
        totalKeystrokes := st.totalKeystrokes + 1
        errors :=
          if hasMismatch st.userInput st.currentText then st.errors + 1 else st.errors } := by
  unfold checkInput
  simp only [h, Bool.false_eq_true, if_false]
  split_ifs <;> simp_all

/-- On an exact match, `checkInput` records the result and hands over to
`initGame`: counters are re-zeroed, the next phrase is installed, the
score advances by one, and the best challenge score is untouched. -/
lemma checkInput_of_eq (st : GameState) (now : Nat) (ph : List Char)
    (h : st.isInputDisabled = false) (heq : st.userInput = st.currentText) :
    (checkInput st now ph).errors = 0 ∧
    (checkInput st now ph).totalKeystrokes = 0 ∧
    (checkInput st now ph).userInput = [] ∧
    (checkInput st now ph).currentText = ph ∧
    (checkInput st now ph).score = st.score + 1 ∧
    (checkInput st now ph).bestTime = st.bestTime ∧
    (checkInput st now ph).isInputDisabled = false ∧
    (checkInput st now ph).challengeMode = st.challengeMode ∧
    (checkInput st now ph).challengeTimeLeft = st.challengeTimeLeft ∧
    (checkInput st now ph).challengeTimerOn = st.challengeTimerOn := by
  unfold checkInput
  simp only [h, Bool.false_eq_true, if_false]
  split_ifs <;> simp_all

/-!
## The `errorCount ≤ totalKeystrokes` invariant
-/

lemma isInputDisabled_false_of_disabledAttr (st : GameState)
    (h : disabledAttr st = false) : st.isInputDisabled = false := by
  revert h; unfold disabledAttr
  cases st.isInputDisabled <;> simp

/-- Every event preserves `errors ≤ totalKeystrokes`. -/
lemma step_errors_le_totalKeystrokes (ev : Event) (st : GameState)
    (h : st.errors ≤ st.totalKeystrokes) :
    (step ev st).errors ≤ (step ev st).totalKeystrokes := by
  cases ev with
  | input newInput now phrase =>
    simp only [step, stepInput]
    split_ifs with hd
    · exact h
    · have hdis : ({ st with userInput := newInput } : GameState).isInputDisabled = false :=
        isInputDisabled_false_of_disabledAttr st (by simpa using hd)
      by_cases heq :
          ({ st with userInput := newInput } : GameState).userInput =
            ({ st with userInput := newInput } : GameState).currentText
      · have hc := checkInput_of_eq { st with userInput := newInput } now phrase hdis heq
        simp [watchUserInput_errors, watchUserInput_totalKeystrokes, hc.1, hc.2.1]
      · rw [watchUserInput_errors, watchUserInput_totalKeystrokes,
          checkInput_of_ne { st with userInput := newInput } now phrase hdis heq]
        simp only
        split_ifs <;> simp <;> omega
  | challengeTickEv =>
    simp only [step, challengeTick]
    split_ifs <;> simp [h]
  | countdownTickEv =>
    simp only [step, countdownTick]
    split_ifs <;> simp [h]
  | startChallengeEv phrase now =>
    simp [step, startChallenge]
  | resetEv phrase now =>
    simp [step, resetGame]
  | changeLanguageEv phrase now =>
    simp [step]

lemma run_errors_le_totalKeystrokes (evs : List Event) (st : GameState)
    (h : st.errors ≤ st.totalKeystrokes) :
    (run evs st).errors ≤ (run evs st).totalKeystrokes := by
  induction evs generalizing st with
  | nil => exact h
  | cons ev evs ih =>
    exact ih (step ev st) (step_errors_le_totalKeystrokes ev st h)

/-!
## The `typedInput` length invariant (anti-paste truncation)
-/

/-- After the observer runs, the input never exceeds the target. -/
lemma watchUserInput_userInput_length (o : List Char) (st : GameState) :
    (watchUserInput o st).userInput.length ≤ st.currentText.length := by
  rcases le_or_lt st.userInput.length st.currentText.length with hle | hgt
  · rw [watchUserInput_userInput_of_le _ _ hle]; exact hle
  · rw [watchUserInput_userInput_of_gt _ _ hgt]; simp [List.length_take]

/-- Every event preserves `userInput.length ≤ currentText.length`. -/
lemma step_userInput_length_le (ev : Event) (st : GameState)
    (h : st.userInput.length ≤ st.currentText.length) :
    (step ev st).userInput.length ≤ (step ev st).currentText.length := by
  cases ev with
  | input newInput now phrase =>
    simp only [step, stepInput]
    split_ifs with hd
    · exact h
    · rw [watchUserInput_currentText]
      exact watchUserInput_userInput_length _ _
  | challengeTickEv =>
    simp only [step, challengeTick]
    split_ifs <;> simp [h]
  | countdownTickEv =>
    simp only [step, countdownTick]
    split_ifs <;> simp [h]
  | startChallengeEv phrase now =>
    simp [step, startChallenge]
  | resetEv phrase now =>
    simp [step, resetGame]
  | changeLanguageEv phrase now =>
    simp [step]

lemma run_userInput_length_le (evs : List Event) (st : GameState)
    (h : st.userInput.length ≤ st.currentText.length) :
    (run evs st).userInput.length ≤ (run evs st).currentText.length := by
  induction evs generalizing st with
  | nil => exact h
  | cons ev evs ih =>
    exact ih (step ev st) (step_userInput_length_le ev st h)

/-!
## Monotonicity of the best challenge score
-/

/-- An input event never touches `bestTime`. -/
lemma stepInput_bestTime (n : List Char) (now : Nat) (ph : List Char) (st : GameState) :
    (stepInput n now ph st).bestTime = st.bestTime := by
  unfold stepInput
  split_ifs with hd
  · rfl
  · rw [watchUserInput_bestTime]
    have hdis : ({ st with userInput := n } : GameState).isInputDisabled = false :=
      isInputDisabled_false_of_disabledAttr st (by simpa using hd)
    by_cases heq :
        ({ st with userInput := n } : GameState).userInput =
          ({ st with userInput := n } : GameState).currentText
    · exact (checkInput_of_eq { st with userInput := n } now ph hdis heq).2.2.2.2.2.1
    · rw [checkInput_of_ne { st with userInput := n } now ph hdis heq]

lemma challengeTick_bestTime (st : GameState) :
    (challengeTick st).bestTime =
      if st.challengeTimerOn = true ∧ st.challengeTimeLeft ≤ 1 ∧ st.bestTime < st.score
      then st.score else st.bestTime := by
  simp only [challengeTick]
  split_ifs with h1 h2 h3 h3 h3 <;> simp_all [endChallenge_bestTime] <;> omega

lemma countdownTick_bestTime (st : GameState) :
    (countdownTick st).bestTime = st.bestTime := by
  simp only [countdownTick]
  split_ifs <;> simp

lemma startChallenge_bestTime (st : GameState) (ph : List Char) (now : Nat) :
    (startChallenge st ph now).bestTime = st.bestTime := by
  simp only [startChallenge]
  simp

lemma resetGame_bestTime (st : GameState) (ph : List Char) (now : Nat) :
    (resetGame st ph now).bestTime =
      if st.challengeMode = true ∧ st.bestTime < st.score then st.score else st.bestTime := by
  simp only [resetGame]
  split_ifs with h1 h2 h2 h2 <;> simp_all [endChallenge_bestTime] <;> omega

/-- No event ever lowers `bestTime` (the persisted best challenge
score). -/
lemma step_bestTime_mono (ev : Event) (st : GameState) :
    st.bestTime ≤ (step ev st).bestTime := by
  cases ev with
  | input newInput now phrase => rw [step, stepInput_bestTime]
  | challengeTickEv =>
    rw [step, challengeTick_bestTime]; split_ifs <;> omega
  | countdownTickEv => rw [step, countdownTick_bestTime]
  | startChallengeEv phrase now => rw [step, startChallenge_bestTime]
  | resetEv phrase now =>
    rw [step, resetGame_bestTime]; split_ifs <;> omega
  | changeLanguageEv phrase now => rw [step, initGame_bestTime]

/-- `bestTime` changes only when a challenge ends (the challenge
interval fires with one second or less remaining, or the game is reset
while in challenge mode), and then only upwards, to the current score. -/
lemma step_bestTime_change (ev : Event) (st : GameState)
    (h : (step ev st).bestTime ≠ st.bestTime) :
    (step ev st).bestTime = st.score ∧ st.bestTime < st.score ∧
      ((ev = .challengeTickEv ∧ st.challengeTimerOn = true ∧ st.challengeTimeLeft ≤ 1) ∨
        (∃ ph now, ev = .resetEv ph now ∧ st.challengeMode = true)) := by
  cases ev with
  | input newInput now phrase =>
    exact absurd (by rw [step, stepInput_bestTime]) h
  | challengeTickEv =>
    rw [step, challengeTick_bestTime] at h ⊢
    split_ifs at h ⊢ with hc
    · exact ⟨rfl, hc.2.2, Or.inl ⟨rfl, hc.1, hc.2.1⟩⟩
    · exact absurd rfl h
  | countdownTickEv =>
    exact absurd (by rw [step, countdownTick_bestTime]) h
  | startChallengeEv phrase now =>
    exact absurd (by rw [step, startChallenge_bestTime]) h
  | resetEv phrase now =>
    rw [step, resetGame_bestTime] at h ⊢
    split_ifs at h ⊢ with hc
    · exact ⟨rfl, hc.2, Or.inr ⟨phrase, now, rfl, hc.1⟩⟩
    · exact absurd rfl h
  | changeLanguageEv phrase now =>
    exact absurd (by rw [step, initGame_bestTime]) h

lemma run_bestTime_mono (evs : List Event) (st : GameState) :
    st.bestTime ≤ (run evs st).bestTime := by
  induction evs generalizing st with
  | nil => exact le_refl _
  | cons ev evs ih =>
    exact le_trans (step_bestTime_mono ev st) (ih (step ev st))

/-!
## The error scan
-/

/-- The loop flags exactly the inputs that mismatch the target at some
position below the input's length (reading the target through `get?`,
as the JS index read yields `undefined` past its end). -/
lemma hasMismatch_iff (input target : List Char) :
    hasMismatch input target = true ↔
      ∃ i, i < input.length ∧ input.get? i ≠ target.get? i := by
  induction input generalizing target with
  | nil => simp [hasMismatch]
  | cons c ins ih =>
    cases target with
    | nil =>
      simp only [hasMismatch, List.length_cons, true_iff]
      exact ⟨0, Nat.succ_pos _, by simp⟩
    | cons t ts =>
      by_cases hct : c = t
      · subst hct
        have hred : hasMismatch (c :: ins) (c :: ts) = hasMismatch ins ts := by
          simp [hasMismatch]
        rw [hred, ih ts]
        constructor
        · rintro ⟨i, hi, hne⟩
          exact ⟨i + 1, by simpa using hi, by simpa using hne⟩
        · rintro ⟨i, hi, hne⟩
          cases i with
          | zero => simp at hne
          | succ j => exact ⟨j, by simpa using hi, by simpa using hne⟩
      · have hred : hasMismatch (c :: ins) (t :: ts) = true := by
          simp [hasMismatch, hct]
        rw [hred]
        simp only [true_iff]
        exact ⟨0, Nat.succ_pos _, by simp [hct]⟩

lemma hasMismatch_self (l : List Char) : hasMismatch l l = false := by
  induction l with
  | nil => rfl
  | cons c rest ih => simpa [hasMismatch] using ih

lemma ne_of_hasMismatch (a b : List Char) (h : hasMismatch a b = true) : a ≠ b := by
  intro hab
  rw [hab, hasMismatch_self] at h
  exact Bool.false_ne_true h

/-- When the textarea is enabled, an input event is the composition of
the `v-model` write, `checkInput` and the watcher flush. -/
lemma stepInput_of_enabled (n : List Char) (now : Nat) (ph : List Char)
    (st : GameState) (hda : disabledAttr st = false) :
    stepInput n now ph st =
      watchUserInput st.userInput (checkInput { st with userInput := n } now ph) := by
  simp only [stepInput, hda]
  simp

/-- A processed input event whose payload still mismatches the target
adds exactly one error, leaves the target and the enabled/disabled
state alone, and keeps the textarea enabled. -/
lemma stepInput_errors_of_mismatch (n : List Char) (now : Nat) (ph : List Char)
    (st : GameState) (hda : disabledAttr st = false)
    (hm : hasMismatch n st.currentText = true) :
    (stepInput n now ph st).errors = st.errors + 1 ∧
    (stepInput n now ph st).currentText = st.currentText ∧
    disabledAttr (stepInput n now ph st) = false := by
  have hdis : st.isInputDisabled = false := isInputDisabled_false_of_disabledAttr st hda
  have hne :
      ({ st with userInput := n } : GameState).userInput ≠
        ({ st with userInput := n } : GameState).currentText := by
    simpa using ne_of_hasMismatch n st.currentText hm
  rw [stepInput_of_enabled n now ph st hda,
    checkInput_of_ne { st with userInput := n } now ph (by simpa using hdis) hne]
  refine ⟨?_, ?_, ?_⟩
  · rw [watchUserInput_errors]; simp [hm]
  · rw [watchUserInput_currentText]
  · unfold disabledAttr
    rw [watchUserInput_isInputDisabled _ _ (by simpa using hdis),
      watchUserInput_challengeMode, watchUserInput_challengeTimeLeft]
    revert hda
    unfold disabledAttr
    rw [hdis]
    simp

/-- A persisting mismatch is recounted on every processed input event:
`n` events each carrying a mismatching payload add `n` to `errors`. -/
lemma run_errors_of_mismatch (evs : List Event) (st : GameState)
    (hda : disabledAttr st = false)
    (hall : ∀ e ∈ evs, ∃ n now ph,
      e = Event.input n now ph ∧ hasMismatch n st.currentText = true) :
    (run evs st).errors = st.errors + evs.length := by
  induction evs generalizing st with
  | nil => simp [run]
  | cons e evs ih =>
    obtain ⟨n, now, ph, rfl, hm⟩ := hall e (List.mem_cons_self e evs)
    have hstep := stepInput_errors_of_mismatch n now ph st hda hm
    have hrun :
        run (Event.input n now ph :: evs) st = run evs (stepInput n now ph st) := rfl
    rw [hrun, ih (stepInput n now ph st) hstep.2.2 ?_, hstep.1]
    · simp only [List.length_cons]; omega
    · intro e he
      obtain ⟨n', now', ph', rfl, hm'⟩ := hall _ (List.mem_cons_of_mem _ he)
      exact ⟨n', now', ph', rfl, by rwa [hstep.2.1]⟩

/-!
## Accuracy bounds
-/

/-- `round` is monotone. -/
lemma round_le_round_q (x y : ℚ) (h : x ≤ y) : round x ≤ round y := by
  rw [round_eq, round_eq]
  exact Int.floor_le_floor (by linarith)

/-- As long as `errors ≤ totalKeystrokes`, the accuracy percentage is
between 0 and 100. -/
lemma accuracy_mem_bounds (st : GameState) (h : st.errors ≤ st.totalKeystrokes) :
    0 ≤ accuracy st ∧ accuracy st ≤ 100 := by
  unfold accuracy
  split_ifs with h0
  · norm_num
  · have ht : (0 : ℚ) < (st.totalKeystrokes : ℚ) := by
      exact_mod_cast Nat.pos_of_ne_zero h0
    have he : (st.errors : ℚ) ≤ (st.totalKeystrokes : ℚ) := by exact_mod_cast h
    have hx0 : (0 : ℚ) ≤ (((st.totalKeystrokes : ℚ) - (st.errors : ℚ)) / (st.totalKeystrokes : ℚ)) * 100 := by
      have := div_nonneg (by linarith : (0 : ℚ) ≤ (st.totalKeystrokes : ℚ) - (st.errors : ℚ)) (le_of_lt ht)
      linarith
    have hx1 : (((st.totalKeystrokes : ℚ) - (st.errors : ℚ)) / (st.totalKeystrokes : ℚ)) * 100 ≤ 100 := by
      have hq : ((st.totalKeystrokes : ℚ) - (st.errors : ℚ)) / (st.totalKeystrokes : ℚ) ≤ 1 := by
        rw [div_le_one ht]; linarith
      linarith
    constructor
    · have := round_le_round_q 0 _ hx0
      simpa using this
    · have := round_le_round_q _ 100 hx1
      simpa using this

/-!
## Leaderboard lemmas
-/

lemma saveScore_length_le (e : Score) (b : List Score) :
    (saveScore e b).length ≤ 10 := by
  unfold saveScore
  rw [List.length_take]
  exact min_le_left _ _

lemma saveScore_sorted (e : Score) (b : List Score) :
    List.Sorted wpmGe (saveScore e b) := by
  unfold saveScore
  exact List.Pairwise.sublist (List.take_sublist _ _)
    (List.sorted_insertionSort wpmGe (b ++ [e]))

/-- With room on the board, recording keeps every copy of a duplicate
entry: the multiplicity of the new entry grows by exactly one. -/
lemma saveScore_count (e : Score) (b : List Score) (h : b.length < 10) :
    (saveScore e b).count e = b.count e + 1 := by
  unfold saveScore
  have hlen : (List.insertionSort wpmGe (b ++ [e])).length ≤ 10 := by
    rw [(List.perm_insertionSort wpmGe (b ++ [e])).length_eq]
    simp only [List.length_append, List.length_singleton]
    omega
  rw [List.take_of_length_le hlen,
    (List.perm_insertionSort wpmGe (b ++ [e])).count_eq]
  simp

lemma foldRecord_length_le (es : List Score) (b : List Score) (h : b.length ≤ 10) :
    (es.foldl (fun acc e => saveScore e acc) b).length ≤ 10 := by
  induction es generalizing b with
  | nil => exact h
  | cons e es ih => exact ih (saveScore e b) (saveScore_length_le e b)

lemma foldRecord_sorted (es : List Score) (b : List Score) (h : List.Sorted wpmGe b) :
    List.Sorted wpmGe (es.foldl (fun acc e => saveScore e acc) b) := by
  induction es generalizing b with
  | nil => exact h
  | cons e es ih => exact ih (saveScore e b) (saveScore_sorted e b)

/-!
## Word counting: the code's `trim().split(/\s+/).length` versus the
spec's "splits on runs of whitespace"
-/

/-- Number of maximal runs of characters satisfying `p`; `prev` records
whether the previous character satisfied `p`. -/
def countRuns (p : Char → Bool) : Bool → List Char → Nat
  | _, [] => 0
  | prev, c :: rest => (if p c && !prev then 1 else 0) + countRuns p (p c) rest

/-- The spec's word count ("`wordCount` splits the typed input on runs
of whitespace"): the number of words of the input, i.e. of maximal runs
of non-whitespace characters.  An empty or all-whitespace input has 0
words. -/
def specWordCount (l : List Char) : Nat :=
  countRuns (fun c => !isWs c) false l

/-- The word count the code actually computes:
`userInput.trim().split(/\s+/).length`. -/
def jsWordCount (l : List Char) : Nat :=
  (jsSplitWS (jsTrim l)).length

/-- The number of fields `split(/\s+/)` produces is one more than the
number of separator runs (a leading run counts, because it contributes
a leading empty field). -/
lemma length_jsSplitGo (l : List Char) :
    ∀ (acc : List Char) (s : Bool),
      (jsSplitGo acc s l).length = 1 + countRuns isWs s l := by
  induction l with
  | nil => intro acc s; simp [jsSplitGo, countRuns]
  | cons c rest ih =>
    intro acc s
    by_cases hw : isWs c
    · cases s <;> simp [jsSplitGo, countRuns, hw, ih] <;> omega
    · simp [jsSplitGo, countRuns, hw, ih]

lemma trimRight_cons_self (c : Char) (rest : List Char)
    (h : trimRight (c :: rest) = c :: rest) :
    trimRight rest = rest ∧ (rest = [] → isWs c = false) := by
  have hxp : trimRight (c :: rest) =
      if trimRight rest = [] then (if isWs c then [] else [c])
      else c :: trimRight rest := by
    simp only [trimRight]
  rw [hxp] at h
  by_cases h1 : trimRight rest = []
  · rw [if_pos h1] at h
    by_cases h2 : isWs c
    · rw [if_pos h2] at h
      exact absurd h (by simp)
    · rw [if_neg h2] at h
      have hrest : rest = [] := by simpa using h.symm
      subst hrest
      exact ⟨rfl, fun _ => by simpa using h2⟩
  · rw [if_neg h1] at h
    have heq : trimRight rest = rest := by simpa using h
    exact ⟨heq, fun hnil => absurd (by rw [hnil]; rfl) h1⟩

/-- On a string with no trailing whitespace, word runs are separator
runs plus one when the scan starts outside a word (unless empty). -/
lemma countRuns_words_of_trimmed (l : List Char) (h : trimRight l = l) :
    ∀ b : Bool,
      countRuns (fun c => !isWs c) b l =
        countRuns isWs (!b) l + (if l = [] then 0 else if b then 0 else 1) := by
  induction l with
  | nil => intro b; simp [countRuns]
  | cons c rest ih =>
    intro b
    obtain ⟨hr, hc⟩ := trimRight_cons_self c rest h
    by_cases hw : isWs c
    · have hrest : rest ≠ [] := fun hnil => by simp [hc hnil] at hw
      have ihf := ih hr false
      cases b <;>
        simp [countRuns, hw, ihf, if_neg hrest] <;> omega
    · have iht := ih hr true
      cases b <;>
        simp [countRuns, hw, iht] <;> omega

/-- The starting flag is irrelevant when the first character does not
satisfy `p`. -/
lemma countRuns_flag_of_head (p : Char → Bool) (l : List Char)
    (h : ∀ c, l.head? = some c → p c = false) :
    countRuns p true l = countRuns p false l := by
  cases l with
  | nil => rfl
  | cons c rest =>
    have hc : p c = false := h c rfl
    simp [countRuns, hc]

/-- Dropping leading whitespace does not change the word count. -/
lemma specWordCount_dropWhile (l : List Char) :
    countRuns (fun c => !isWs c) false (l.dropWhile isWs) =
      countRuns (fun c => !isWs c) false l := by
  induction l with
  | nil => rfl
  | cons c rest ih =>
    by_cases hw : isWs c
    · rw [List.dropWhile_cons_of_pos (by simpa using hw)]
      rw [ih]
      simp [countRuns, hw]
    · rw [List.dropWhile_cons_of_neg (by simpa using hw)]

/-- Dropping trailing whitespace does not change the word count. -/
lemma countRuns_trimRight (l : List Char) :
    ∀ b : Bool,
      countRuns (fun c => !isWs c) b (trimRight l) =
        countRuns (fun c => !isWs c) b l := by
  induction l with
  | nil => intro b; rfl
  | cons c rest ih =>
    intro b
    have hxp : trimRight (c :: rest) =
        if trimRight rest = [] then (if isWs c then [] else [c])
        else c :: trimRight rest := by
      simp only [trimRight]
    rw [hxp]
    by_cases h1 : trimRight rest = []
    · have hrest : ∀ b' : Bool, countRuns (fun c => !isWs c) b' rest = 0 := by
        intro b'
        have := ih b'
        rw [h1] at this
        exact this.symm
      rw [if_pos h1]
      by_cases hw : isWs c
      · simp [countRuns, hw, hrest]
      · simp [countRuns, hw, hrest]
    · rw [if_neg h1]
      simp [countRuns, ih]

/-- The head of `trimRight l`, when it exists, is the head of `l`. -/
lemma trimRight_head (l : List Char) :
    trimRight l = [] ∨ (trimRight l).head? = l.head? := by
  cases l with
  | nil => exact Or.inl rfl
  | cons c rest =>
    have hxp : trimRight (c :: rest) =
        if trimRight rest = [] then (if isWs c then [] else [c])
        else c :: trimRight rest := by
      simp only [trimRight]
    rw [hxp]
    by_cases h1 : trimRight rest = []
    · rw [if_pos h1]
      by_cases hw : isWs c
      · exact Or.inl (by rw [if_pos hw])
      · exact Or.inr (by rw [if_neg hw]; rfl)
    · exact Or.inr (by rw [if_neg h1]; rfl)

/-- The head of a `dropWhile` result never satisfies the predicate. -/
lemma head_dropWhile_false (p : Char → Bool) (l : List Char) :
    ∀ c, (l.dropWhile p).head? = some c → p c = false := by
  induction l with
  | nil => intro c h; simp at h
  | cons d rest ih =>
    intro c h
    by_cases hd : p d
    · rw [List.dropWhile_cons_of_pos (by simpa using hd)] at h
      exact ih c h
    · rw [List.dropWhile_cons_of_neg (by simpa using hd)] at h
      simp at h
      rw [← h]
      simpa using hd

/-- `trimRight` is idempotent. -/
lemma trimRight_idem (l : List Char) : trimRight (trimRight l) = trimRight l := by
  induction l with
  | nil => rfl
  | cons c rest ih =>
    have hxp : trimRight (c :: rest) =
        if trimRight rest = [] then (if isWs c then [] else [c])
        else c :: trimRight rest := by
      simp only [trimRight]
    rw [hxp]
    by_cases h1 : trimRight rest = []
    · rw [if_pos h1]
      by_cases hw : isWs c
      · rw [if_pos hw]; rfl
      · rw [if_neg hw]
        show trimRight [c] = [c]
        simp [trimRight, hw]
    · rw [if_neg h1]
      have hxp2 : trimRight (c :: trimRight rest) =
          if trimRight (trimRight rest) = [] then (if isWs c then [] else [c])
          else c :: trimRight (trimRight rest) := by
        simp only [trimRight]
      rw [hxp2, ih, if_neg h1]

/-- On an input whose trim is non-empty, the code's
`trim().split(/\s+/).length` is exactly the number of
whitespace-separated words of the input. -/
lemma jsWordCount_eq_specWordCount (l : List Char) (h : jsTrim l ≠ []) :
    jsWordCount l = specWordCount l := by
  unfold jsWordCount specWordCount jsSplitWS
  rw [length_jsSplitGo (jsTrim l) [] false]
  have hhead : ∀ c, (jsTrim l).head? = some c → isWs c = false := by
    intro c hc
    rcases trimRight_head (l.dropWhile isWs) with hnil | hh
    · exact absurd hnil h
    · exact head_dropWhile_false isWs l c (by rw [← hh]; exact hc)
  have hflag : countRuns isWs false (jsTrim l) = countRuns isWs true (jsTrim l) :=
    (countRuns_flag_of_head isWs (jsTrim l) hhead).symm
  have htr : trimRight (jsTrim l) = jsTrim l := trimRight_idem (l.dropWhile isWs)
  have hw := countRuns_words_of_trimmed (jsTrim l) htr false
  rw [if_neg h] at hw
  simp only [Bool.not_false, Bool.false_eq_true, if_false] at hw
  have hchain : countRuns (fun c => !isWs c) false (jsTrim l) =
      countRuns (fun c => !isWs c) false l := by
    unfold jsTrim
    rw [countRuns_trimRight (l.dropWhile isWs) false, specWordCount_dropWhile l]
  rw [hflag]
  omega

/-!
## WPM helper equations
-/

lemma calculateWPM_none (st : GameState) (now : Nat) (h : st.startTime = none) :
    calculateWPM st now = 0 := by
  unfold calculateWPM
  rw [h]

lemma calculateWPM_some (st : GameState) (now t0 : Nat) (h : st.startTime = some t0)
    (h0 : t0 ≠ 0) :
    calculateWPM st now =
      round ((jsWordCount st.userInput : ℚ) / (((now : ℚ) - (t0 : ℚ)) / 60000)) := by
  unfold calculateWPM jsWordCount jsTrim
  rw [h]
  simp [h0]

/-!
## The claims
-/

/-- C1: while the typed input does not exceed the target, a processed
keystroke event increments `errorCount` by exactly 1 when some position
of the current input mismatches the target (however many positions are
wrong) and leaves it unchanged when no position mismatches; in the
concrete run `"c"` → `"cx"` against `"cat"`, the `"cx"` event adds
exactly one error. -/
theorem claim_C1_error_increment :
    (∀ (st : GameState) (now : Nat) (ph : List Char),
      st.isInputDisabled = false →
      st.userInput.length ≤ st.currentText.length →
      ((∃ i, i < st.userInput.length ∧ st.userInput.get? i ≠ st.currentText.get? i) →
        (checkInput st now ph).errors = st.errors + 1) ∧
      ((∀ i, i < st.userInput.length → st.userInput.get? i = st.currentText.get? i) →
        st.userInput ≠ st.currentText →
        (checkInput st now ph).errors = st.errors)) ∧
    ((step (Event.input ("c".toList) 1 ("dog".toList))
        (initialState 0 0 [] ("cat".toList) 0)).errors = 0 ∧
      (step (Event.input ("cx".toList) 2 ("dog".toList))
          (step (Event.input ("c".toList) 1 ("dog".toList))
            (initialState 0 0 [] ("cat".toList) 0))).errors =
        (step (Event.input ("c".toList) 1 ("dog".toList))
          (initialState 0 0 [] ("cat".toList) 0)).errors + 1) := by
  constructor
  · intro st now ph hdis _
    constructor
    · rintro ⟨i, hi, hne⟩
      have hm : hasMismatch st.userInput st.currentText = true :=
        (hasMismatch_iff _ _).2 ⟨i, hi, hne⟩
      rw [checkInput_of_ne st now ph hdis (ne_of_hasMismatch _ _ hm)]
      simp [hm]
    · intro hall hneq
      have hm : hasMismatch st.userInput st.currentText = false := by
        cases hb : hasMismatch st.userInput st.currentText with
        | false => rfl
        | true =>
          obtain ⟨i, hi, hne⟩ := (hasMismatch_iff _ _).1 hb
          exact absurd (hall i hi) hne
      rw [checkInput_of_ne st now ph hdis hneq]
      simp [hm]
  · exact ⟨by decide, by decide⟩

/-- Witness for C1 at a concrete mismatching state. -/
theorem claim_C1_witness :
    (checkInput { initialState 0 0 [] ("ab".toList) 7 with userInput := ("x".toList) }
        8 []).errors =
      ({ initialState 0 0 [] ("ab".toList) 7 with
          userInput := ("x".toList) } : GameState).errors + 1 :=
  (claim_C1_error_increment.1
    { initialState 0 0 [] ("ab".toList) 7 with userInput := ("x".toList) }
    8 [] (by decide) (by decide)).1 ⟨0, by decide, by decide⟩

/-- C2: both counters start at 0 and `errorCount ≤ totalKeystrokes`
holds after every sequence of events from a freshly initialised game. -/
theorem claim_C2_errors_le_totalKeystrokes (hs bt : Nat) (sc : List Score)
    (ph : List Char) (now : Nat) (evs : List Event) :
    (initialState hs bt sc ph now).errors = 0 ∧
    (initialState hs bt sc ph now).totalKeystrokes = 0 ∧
    (run evs (initialState hs bt sc ph now)).errors ≤
      (run evs (initialState hs bt sc ph now)).totalKeystrokes := by
  refine ⟨rfl, rfl, run_errors_le_totalKeystrokes evs _ (by simp [initialState])⟩

/-- C3: the accuracy percentage is 100 when no keystroke was counted,
equals `round(100 * (totalKeystrokes - errorCount) / totalKeystrokes)`
otherwise, and lies in `[0, 100]` in every reachable state. -/
theorem claim_C3_accuracy (hs bt : Nat) (sc : List Score) (ph : List Char) (now : Nat)
    (evs : List Event) :
    ((run evs (initialState hs bt sc ph now)).totalKeystrokes = 0 →
      accuracy (run evs (initialState hs bt sc ph now)) = 100) ∧
    0 ≤ accuracy (run evs (initialState hs bt sc ph now)) ∧
    accuracy (run evs (initialState hs bt sc ph now)) ≤ 100 ∧
    ((run evs (initialState hs bt sc ph now)).totalKeystrokes ≠ 0 →
      accuracy (run evs (initialState hs bt sc ph now)) =
        round ((100 : ℚ) *
          (((run evs (initialState hs bt sc ph now)).totalKeystrokes : ℚ) -
            ((run evs (initialState hs bt sc ph now)).errors : ℚ)) /
          ((run evs (initialState hs bt sc ph now)).totalKeystrokes : ℚ))) := by
  have hinv := run_errors_le_totalKeystrokes evs (initialState hs bt sc ph now)
    (by simp [initialState])
  obtain ⟨h0, h100⟩ := accuracy_mem_bounds _ hinv
  refine ⟨fun h => by unfold accuracy; rw [if_pos h], h0, h100, fun h => ?_⟩
  unfold accuracy
  rw [if_neg h]
  congr 1
  ring

/-- Witness for C3 on the freshly initialised state. -/
theorem claim_C3_witness :
    accuracy (run [] (initialState 0 0 [] ("a".toList) 0)) = 100 :=
  (claim_C3_accuracy 0 0 [] ("a".toList) 0 []).1 (by decide)

/-- C4, counterexample to the claim as stated: in the reachable state
right after `initGame` (typed input empty, `startedAt = 1`), one minute
later the code reports 1 WPM — `"".trim().split(/\s+/)` has one (empty)
field — while `round(wordCount(typedInput) / elapsedMinutes)` with the
spec's word count (0 words in an empty input) is 0. -/
theorem claim_C4_counterexample :
    calculateWPM (initialState 0 0 [] ("cat".toList) 1) 60001 = 1 ∧
    round ((specWordCount (initialState 0 0 [] ("cat".toList) 1).userInput : ℚ) /
      (((60001 : ℚ) - (1 : ℚ)) / 60000)) = 0 ∧ (1 : Int) ≠ 0 := by
  refine ⟨?_, ?_, by decide⟩
  · rw [calculateWPM_some _ 60001 1 (by decide) (by decide)]
    have h1 : jsWordCount (initialState 0 0 [] ("cat".toList) 1).userInput = 1 := by decide
    rw [h1]
    have h2 : ((1 : Nat) : ℚ) / ((((60001 : Nat) : ℚ) - ((1 : Nat) : ℚ)) / 60000) = 1 := by
      norm_num
    rw [h2, round_one]
  · have h1 : specWordCount (initialState 0 0 [] ("cat".toList) 1).userInput = 0 := by decide
    rw [h1]
    have h2 : (((0 : Nat) : ℚ)) / (((60001 : ℚ) - (1 : ℚ)) / 60000) = 0 := by norm_num
    rw [h2, round_zero]

/-- C4 as amended: `wordsPerMinute` is 0 when `startedAt` is absent and
otherwise `round(jsWordCount(typedInput) / elapsedMinutes)` with
`elapsedMinutes = (now - startedAt) / 60000`, where the word count is
the length of the JS split of the *trimmed* input on whitespace runs:
it equals the spec's whitespace-separated word count whenever the
trimmed input is non-empty, but is 1 (not 0) for an empty or
all-whitespace input. -/
theorem claim_C4_wpm_amended :
    ∀ (st : GameState) (now : Nat),
      (st.startTime = none → calculateWPM st now = 0) ∧
      (∀ t0, st.startTime = some t0 → t0 ≠ 0 →
        calculateWPM st now =
          round ((jsWordCount st.userInput : ℚ) / (((now : ℚ) - (t0 : ℚ)) / 60000))) ∧
      (jsTrim st.userInput = [] → jsWordCount st.userInput = 1) ∧
      (jsTrim st.userInput ≠ [] → jsWordCount st.userInput = specWordCount st.userInput) := by
  intro st now
  refine ⟨calculateWPM_none st now, fun t0 h h0 => calculateWPM_some st now t0 h h0,
    fun h => ?_, fun h => jsWordCount_eq_specWordCount st.userInput h⟩
  unfold jsWordCount
  rw [h]
  rfl

/-- Witness for the amended C4 on a finished one-word phrase typed in
one minute. -/
theorem claim_C4_witness :
    calculateWPM { initialState 0 0 [] ("hi".toList) 1 with userInput := ("hi".toList) }
        60001 =
      round ((jsWordCount
          ({ initialState 0 0 [] ("hi".toList) 1 with
              userInput := ("hi".toList) } : GameState).userInput : ℚ) /
        (((60001 : ℚ) - ((1 : Nat) : ℚ)) / 60000)) :=
  (claim_C4_wpm_amended
    { initialState 0 0 [] ("hi".toList) 1 with userInput := ("hi".toList) }
    60001).2.1 1 rfl (by decide)

/-- C5: `record` appends the entry, stable-sorts descending by WPM and
keeps the first 10; with room on the board a duplicate entry is kept (no
deduplication); afterwards the board never exceeds 10 entries and, once
sorted, stays sorted under any further sequence of `record` calls. -/
theorem claim_C5_leaderboard :
    (∀ (e : Score) (b : List Score),
      saveScore e b = (List.insertionSort wpmGe (b ++ [e])).take 10 ∧
      (saveScore e b).length ≤ 10 ∧
      List.Sorted wpmGe (saveScore e b)) ∧
    (∀ (e : Score) (b : List Score), b.length < 10 →
      (saveScore e b).count e = b.count e + 1) ∧
    (∀ (es : List Score) (b : List Score), b.length ≤ 10 → List.Sorted wpmGe b →
      (es.foldl (fun acc e => saveScore e acc) b).length ≤ 10 ∧
      List.Sorted wpmGe (es.foldl (fun acc e => saveScore e acc) b)) := by
  refine ⟨fun e b => ⟨rfl, saveScore_length_le e b, saveScore_sorted e b⟩,
    saveScore_count,
    fun es b hlen hsorted => ⟨foldRecord_length_le es b hlen, foldRecord_sorted es b hsorted⟩⟩

/-- Witness for C5: recording a duplicate of the sole entry keeps both
copies. -/
theorem claim_C5_witness :
    (saveScore ⟨42, 100, 3, false⟩ [⟨42, 100, 3, false⟩]).count ⟨42, 100, 3, false⟩ =
      ([(⟨42, 100, 3, false⟩ : Score)].count (⟨42, 100, 3, false⟩ : Score)) + 1 :=
  claim_C5_leaderboard.2.1 ⟨42, 100, 3, false⟩ [⟨42, 100, 3, false⟩] (by decide)

/-- C6, the code evaluated on the cited path: `startChallenge` sets the
countdown to 30 — not the 60 announced by the component's own
"Défi 60s" labels and its progress bar `(challengeTimeLeft / 60) * 100`
— and after the countdown reaches 0 the challenge has ended exactly
once (further interval firings change nothing), yet the textarea's
`disabled` binding is false again, because `endChallenge` clears
`challengeMode` before the binding is read: typing is immediately
re-enabled instead of staying disabled. -/
theorem claim_C6_challenge_timer_code :
    (step (Event.startChallengeEv ("ab".toList) 0)
        (initialState 0 0 [] ("x".toList) 0)).challengeTimeLeft = 30 ∧
    ((run (List.replicate 30 Event.challengeTickEv)
        (step (Event.startChallengeEv ("ab".toList) 0)
          (initialState 0 0 [] ("x".toList) 0))).challengeMode = false ∧
      (run (List.replicate 30 Event.challengeTickEv)
        (step (Event.startChallengeEv ("ab".toList) 0)
          (initialState 0 0 [] ("x".toList) 0))).challengeTimerOn = false ∧
      (run (List.replicate 30 Event.challengeTickEv)
        (step (Event.startChallengeEv ("ab".toList) 0)
          (initialState 0 0 [] ("x".toList) 0))).challengeTimeLeft = 0) ∧
    run (List.replicate 45 Event.challengeTickEv)
        (step (Event.startChallengeEv ("ab".toList) 0)
          (initialState 0 0 [] ("x".toList) 0)) =
      run (List.replicate 30 Event.challengeTickEv)
        (step (Event.startChallengeEv ("ab".toList) 0)
          (initialState 0 0 [] ("x".toList) 0)) ∧
    disabledAttr (run (List.replicate 30 Event.challengeTickEv)
        (step (Event.startChallengeEv ("ab".toList) 0)
          (initialState 0 0 [] ("x".toList) 0))) = false := by
  exact ⟨by decide, ⟨by decide, by decide, by decide⟩, by decide, by decide⟩

/-- C7: an over-long input of a processed event is truncated to exactly
the target's length, and `typedInput` never exceeds the target's length
after any event, in particular over every reachable state. -/
theorem claim_C7_truncation :
    (∀ (st : GameState) (newInput : List Char) (now : Nat) (ph : List Char),
      disabledAttr st = false →
      st.currentText.length < newInput.length →
      (step (Event.input newInput now ph) st).userInput =
        newInput.take st.currentText.length) ∧
    (∀ (ev : Event) (st : GameState),
      st.userInput.length ≤ st.currentText.length →
      (step ev st).userInput.length ≤ (step ev st).currentText.length) ∧
    (∀ (hs bt : Nat) (sc : List Score) (ph : List Char) (now : Nat) (evs : List Event),
      (run evs (initialState hs bt sc ph now)).userInput.length ≤
        (run evs (initialState hs bt sc ph now)).currentText.length) := by
  refine ⟨?_, step_userInput_length_le, ?_⟩
  · intro st newInput now ph hda hlong
    have hdis : st.isInputDisabled = false := isInputDisabled_false_of_disabledAttr st hda
    have hne :
        ({ st with userInput := newInput } : GameState).userInput ≠
          ({ st with userInput := newInput } : GameState).currentText := by
      intro he
      simp only at he
      rw [he] at hlong
      omega
    rw [step, stepInput_of_enabled newInput now ph st hda,
      checkInput_of_ne { st with userInput := newInput } now ph (by simpa using hdis) hne]
    rw [watchUserInput_userInput_of_gt _ _ (by simpa using hlong)]
  · intro hs bt sc ph now evs
    exact run_userInput_length_le evs _ (by simp [initialState])

/-- Witness for C7: pasting three characters against a two-character
target keeps only the first two. -/
theorem claim_C7_witness :
    (step (Event.input ("xyz".toList) 1 ("cd".toList))
        (initialState 0 0 [] ("ab".toList) 0)).userInput =
      ("xyz".toList).take ((initialState 0 0 [] ("ab".toList) 0).currentText.length) :=
  claim_C7_truncation.1 (initialState 0 0 [] ("ab".toList) 0) ("xyz".toList) 1
    ("cd".toList) (by decide) (by decide)

/-- C8: a storage read with a missing key or with stored text on which
`JSON.parse` throws returns the caller's default, and in every case the
read returns either the default or a successfully parsed value — never
a propagated error. -/
theorem claim_C8_storage_default :
    ∀ (storage : List Char → Option (List Char))
      (jsonParse : List Char → Except (List Char) JsVal)
      (key : List Char) (dv : JsVal),
      (storage key = none → getStoredValue storage jsonParse key dv = dv) ∧
      (∀ s e, storage key = some s → jsonParse s = .error e →
        getStoredValue storage jsonParse key dv = dv) ∧
      (getStoredValue storage jsonParse key dv = dv ∨
        ∃ s v, storage key = some s ∧ jsonParse s = .ok v ∧
          getStoredValue storage jsonParse key dv = v) := by
  intro storage jsonParse key dv
  refine ⟨fun h => by simp only [getStoredValue, h], fun s e hs he => ?_, ?_⟩
  · simp only [getStoredValue, hs, he]
  · cases hs : storage key with
    | none => exact Or.inl (by simp only [getStoredValue, hs])
    | some s =>
      cases hp : jsonParse s with
      | error e => exact Or.inl (by simp only [getStoredValue, hs, hp])
      | ok v =>
        by_cases ht : typeofJs v ≠ typeofJs dv ∧ isArrayJs v ≠ isArrayJs dv
        · refine Or.inl ?_
          simp only [getStoredValue, hs, hp]
          rw [if_pos ht]
        · refine Or.inr ⟨s, v, rfl, hp, ?_⟩
          simp only [getStoredValue, hs, hp]
          rw [if_neg ht]

/-- Witness for C8: a read of an absent key yields the default. -/
theorem claim_C8_witness :
    getStoredValue (fun _ => none) (fun s => Except.ok (JsVal.str s)) ("k".toList)
        JsVal.null = JsVal.null :=
  (claim_C8_storage_default (fun _ => none) (fun s => Except.ok (JsVal.str s))
    ("k".toList) JsVal.null).1 rfl

/-- C9: the persisted best challenge score never decreases under any
event or event sequence, and it changes only when a challenge ends (the
challenge interval fires with at most one second left, or the game is
reset in challenge mode) with the current score strictly above it, in
which case it becomes that score. -/
theorem claim_C9_bestScore_monotone :
    (∀ (ev : Event) (st : GameState), st.bestTime ≤ (step ev st).bestTime) ∧
    (∀ (evs : List Event) (st : GameState), st.bestTime ≤ (run evs st).bestTime) ∧
    (∀ (ev : Event) (st : GameState), (step ev st).bestTime ≠ st.bestTime →
      (step ev st).bestTime = st.score ∧ st.bestTime < st.score ∧
        ((ev = Event.challengeTickEv ∧ st.challengeTimerOn = true ∧
            st.challengeTimeLeft ≤ 1) ∨
          (∃ ph now, ev = Event.resetEv ph now ∧ st.challengeMode = true))) :=
  ⟨step_bestTime_mono, run_bestTime_mono, step_bestTime_change⟩

/-- Witness for C9: a final challenge tick with score 5 raises the best
score from 0 to 5. -/
theorem claim_C9_witness :
    (step Event.challengeTickEv
        { initialState 0 0 [] ("a".toList) 0 with
          score := 5, challengeTimerOn := true, challengeTimeLeft := 1 }).bestTime =
      ({ initialState 0 0 [] ("a".toList) 0 with
          score := 5, challengeTimerOn := true, challengeTimeLeft := 1 } : GameState).score :=
  (claim_C9_bestScore_monotone.2.2 Event.challengeTickEv
    { initialState 0 0 [] ("a".toList) 0 with
      score := 5, challengeTimerOn := true, challengeTimeLeft := 1 } (by decide)).1

/-- C10: as long as every processed input event still carries a
mismatch against the (unchanged) target at some position within its
length, each such event adds one more error — a wrong character that
persists across `n` events contributes `n` to `errorCount`. -/
theorem claim_C10_no_error_dedup :
    ∀ (st : GameState) (evs : List Event),
      disabledAttr st = false →
      (∀ e ∈ evs, ∃ n now ph, e = Event.input n now ph ∧
        ∃ i, i < n.length ∧ n.get? i ≠ st.currentText.get? i) →
      (run evs st).errors = st.errors + evs.length := by
  intro st evs hda hall
  refine run_errors_of_mismatch evs st hda (fun e he => ?_)
  obtain ⟨n, now, ph, rfl, hm⟩ := hall e he
  exact ⟨n, now, ph, rfl, (hasMismatch_iff _ _).2 hm⟩

/-- Witness for C10: two events that keep the same wrong second
character against `"cat"` add two errors. -/
theorem claim_C10_witness :
    (run [Event.input ("cx".toList) 1 ("dog".toList),
        Event.input ("cxt".toList) 2 ("dog".toList)]
      (initialState 0 0 [] ("cat".toList) 0)).errors =
      (initialState 0 0 [] ("cat".toList) 0).errors + 2 :=
  claim_C10_no_error_dedup (initialState 0 0 [] ("cat".toList) 0)
    [Event.input ("cx".toList) 1 ("dog".toList),
      Event.input ("cxt".toList) 2 ("dog".toList)]
    (by decide)
    (fun e he => by
      simp only [List.mem_cons, List.mem_singleton] at he
      rcases he with rfl | rfl | h
      · exact ⟨("cx".toList), 1, ("dog".toList), rfl, 1, by decide, by decide⟩
      · exact ⟨("cxt".toList), 2, ("dog".toList), rfl, 1, by decide, by decide⟩
      · exact absurd h (by simp))
